import Mathlib

/- Verification of the MT19937 Mersenne Twister pseudo-random number
generator and its reference test harness (test-mt.cpp).

The repository snapshot provides only the test harness source
(src/test-mt.cpp); the generator implementation itself
(mersenne-twister.cpp / mersenne-twister.h) is not present, so the core
operations (srand, rand_u32, rand_u64, randf_cc, randd_cc and the
internal twist) are modelled from the specification. The reference
tables and the exit-code logic are embedded directly from
src/test-mt.cpp.

Machine integers are modelled as Nat with explicit reduction modulo
2 ^ 32 where the 32-bit width matters; the floating-point draws are
modelled as exact rational division.
-/

set_option maxRecDepth 100000
set_option maxHeartbeats 4000000

/-- Word modulus of the generator: all state words are 32-bit values. -/
def U32 : Nat := 2 ^ 32

/-- Modelled from the spec: the tempering transform of Extract
(mersenne-twister.cpp is not in the snapshot), section 4.3:
y ^= y >> 11; y ^= (y << 7) & 0x9D2C5680; y ^= (y << 15) & 0xEFC60000;
y ^= y >> 18. -/
def temper (y : Nat) : Nat :=
  let y1 := y ^^^ (y >>> 11)
  let y2 := y1 ^^^ ((y1 <<< 7) &&& 0x9D2C5680)
  let y3 := y2 ^^^ ((y2 <<< 15) &&& 0xEFC60000)
  y3 ^^^ (y3 >>> 18)

/-- Modelled from the spec: one step of the seeding recurrence,
words[i] = (1812433253 * (words[i-1] XOR (words[i-1] >> 30)) + i) mod 2^32. -/
def seedStep (w i : Nat) : Nat := (1812433253 * (w ^^^ (w >>> 30)) + i) % U32

/-- Modelled from the spec: the tail of the seeded state array, built by
iterating seedStep; w is the previous word, i the next index, n the number
of words still to produce. -/
def seedFrom (w i : Nat) : Nat → List Nat
  | 0 => []
  | n + 1 => seedStep w i :: seedFrom (seedStep w i) (i + 1) n

/-- Modelled from the spec: the full 624-word state array produced by
Seed(s): words[0] = s (as a 32-bit value), then 623 recurrence steps. -/
def seedWords (s : Nat) : List Nat := (s % U32) :: seedFrom (s % U32) 1 623

/-- Modelled from the spec: the twist recurrence value for one index,
given a = words[i], b = words[(i+1) mod 624], c = words[(i+397) mod 624]:
y = (a AND 0x80000000) OR (b AND 0x7FFFFFFF);
next = c XOR (y >> 1), further XOR 0x9908B0DF when y is odd. -/
def mtNext (a b c : Nat) : Nat :=
  let y := (a &&& 0x80000000) ||| (b &&& 0x7FFFFFFF)
  let nx := c ^^^ (y >>> 1)
  if y % 2 = 1 then nx ^^^ 0x9908B0DF else nx

/-- Modelled from the spec: one in-place store of the Regenerate pass at
index i, reading the current (partially updated) array. -/
def twistStep (ws : List Nat) (i : Nat) : List Nat :=
  ws.set i
    (mtNext (ws.getD i 0) (ws.getD ((i + 1) % 624) 0) (ws.getD ((i + 397) % 624) 0))

/-- Modelled from the spec: the first k in-place stores of a Regenerate
pass, applied at indices 0, 1, ..., k-1 in increasing order. -/
def regenUpTo (ws : List Nat) (k : Nat) : List Nat :=
  (List.range k).foldl twistStep ws

/-- Modelled from the spec: Regenerate ("twist") recomputes all 624 state
words in place, index by index in increasing order. -/
def regenerate (ws : List Nat) : List Nat := regenUpTo ws 624

/-- Generator State: the 624-word state array plus the cursor counting
how many words of the current batch have been consumed. -/
structure MTState where
  words : List Nat
  cursor : Nat

/-- Modelled from the spec: Seed — srand(s) fully reinitializes the state
array from s alone and sets the cursor to 624, forcing a Regenerate on
the next Extract. -/
def srand (s : Nat) : MTState := ⟨seedWords s, 624⟩

/-- Modelled from the spec: Extract — rand_u32 regenerates and resets the
cursor exactly when the cursor is 624, tempers the word at the cursor,
and advances the cursor. Returns the drawn value and the new state. -/
def rand_u32 (st : MTState) : Nat × MTState :=
  let st1 := if st.cursor = 624 then MTState.mk (regenerate st.words) 0 else st
  (temper (st1.words.getD st1.cursor 0), MTState.mk st1.words (st1.cursor + 1))

/-- Modelled from the spec: 64-bit draw — rand_u64 combines two
consecutive Extract results, high word first: (a << 32) | b. -/
def rand_u64 (st : MTState) : Nat × MTState :=
  let a := rand_u32 st
  let b := rand_u32 a.2
  ((a.1 <<< 32) ||| b.1, b.2)

/-- Modelled from the spec: float draw in the closed interval [0,1] —
randf_cc divides one Extract result by 2^32 - 1. The single-precision
division is modelled as exact rational division. -/
def randf_cc (st : MTState) : ℚ × MTState :=
  (((rand_u32 st).1 : ℚ) / (2 ^ 32 - 1), (rand_u32 st).2)

/-- Modelled from the spec: double draw in the closed interval [0,1] —
randd_cc divides one Extract result by 2^32 - 1. The double-precision
division is modelled as exact rational division. -/
def randd_cc (st : MTState) : ℚ × MTState :=
  (((rand_u32 st).1 : ℚ) / (2 ^ 32 - 1), (rand_u32 st).2)

/-- Modelled from the spec: re-seeding a previously used instance fully
reinitializes it from the seed alone, discarding all prior state. -/
def reseed (_st : MTState) (s : Nat) : MTState := srand s

/-- List of the next n Extract outputs drawn from state st. -/
def extractN (st : MTState) : Nat → List Nat
  | 0 => []
  | n + 1 => (rand_u32 st).1 :: extractN (rand_u32 st).2 n

/-- First n outputs of the generator freshly seeded with s. -/
def mtOutputs (s n : Nat) : List Nat := extractN (srand s) n

/-- State of the generator seeded with s after n Extract calls. -/
def mtStateAfter (s : Nat) : Nat → MTState
  | 0 => srand s
  | n + 1 => (rand_u32 (mtStateAfter s n)).2

/-- Zero-based n-th Extract output of the generator seeded with s. -/
def mtNth (s n : Nat) : Nat := (rand_u32 (mtStateAfter s n)).1

/-- Reference outputs for seed 1, copied from the expected table in
src/test-mt.cpp (lines 28-69). -/
def expected : List Nat := [
  1791095845, 4282876139, 3093770124, 4005303368, 491263, 550290313, 1298508491, 4290846341, 630311759, 1013994432,
  396591248, 1703301249, 799981516, 1666063943, 1484172013, 2876537340, 1704103302, 4018109721, 2314200242, 3634877716,
  1800426750, 1345499493, 2942995346, 2252917204, 878115723, 1904615676, 3771485674, 986026652, 117628829, 2295290254,
  2879636018, 3925436996, 1792310487, 1963679703, 2399554537, 1849836273, 602957303, 4033523166, 850839392, 3343156310,
  3439171725, 3075069929, 4158651785, 3447817223, 1346146623, 398576445, 2973502998, 2225448249, 3764062721, 3715233664,
  3842306364, 3561158865, 365262088, 3563119320, 167739021, 1172740723, 729416111, 254447594, 3771593337, 2879896008,
  422396446, 2547196999, 1808643459, 2884732358, 4114104213, 1768615473, 2289927481, 848474627, 2971589572, 1243949848,
  1355129329, 610401323, 2948499020, 3364310042, 3584689972, 1771840848, 78547565, 146764659, 3221845289, 2680188370,
  4247126031, 2837408832, 3213347012, 1282027545, 1204497775, 1916133090, 3389928919, 954017671, 443352346, 315096729,
  1923688040, 2015364118, 3902387977, 413056707, 1261063143, 3879945342, 1235985687, 513207677, 558468452, 2253996187,
  83180453, 359158073, 2915576403, 3937889446, 908935816, 3910346016, 1140514210, 1283895050, 2111290647, 2509932175,
  229190383, 2430573655, 2465816345, 2636844999, 630194419, 4108289372, 2531048010, 1120896190, 3005439278, 992203680,
  439523032, 2291143831, 1778356919, 4079953217, 2982425969, 2117674829, 1778886403, 2321861504, 214548472, 3287733501,
  2301657549, 194758406, 2850976308, 601149909, 2211431878, 3403347458, 4057003596, 127995867, 2519234709, 3792995019,
  3880081671, 2322667597, 590449352, 1924060235, 598187340, 3831694379, 3467719188, 1621712414, 1708008996, 2312516455,
  710190855, 2801602349, 3983619012, 1551604281, 1493642992, 2452463100, 3224713426, 2739486816, 3118137613, 542518282,
  3793770775, 2964406140, 2678651729, 2782062471, 3225273209, 1520156824, 1498506954, 3278061020, 1159331476, 1531292064,
  3847801996, 3233201345, 1838637662, 3785334332, 4143956457, 50118808, 2849459538, 2139362163, 2670162785, 316934274,
  492830188, 3379930844, 4078025319, 275167074, 1932357898, 1526046390, 2484164448, 4045158889, 1752934226, 1631242710,
  1018023110, 3276716738, 3879985479, 3313975271, 2463934640, 1294333494, 12327951, 3318889349, 2650617233, 656828586]

/-- Reference outputs for seed 1 at zero-based positions 2^k - 1, copied
from the doubled_reference_seed1 table in src/test-mt.cpp (lines 79-113). -/
def doubled_reference_seed1 : List Nat := [
  1791095845, 4282876139, 4005303368, 4290846341, 2876537340, 3925436996, 2884732358, 2321861504,
  1195370327, 899765072, 1714350790, 3742484479, 3962329154, 740139619, 3156554771, 2155441805,
  181306153, 1493556421, 1963136003, 2991783559, 1708194087, 712866985, 2195311408, 2899694794,
  1460185617, 1301553711, 669321401, 2613167558, 2861867968, 175437983, 382741236, 3139600069,
  3468780828]

/-- Number of mismatches recorded by the first loop of main in
src/test-mt.cpp: the first 200 outputs for seed 1 compared against the
expected table, position by position. -/
def mainErrors200 : Nat :=
  ((mtOutputs 1 200).zip expected).countP (fun p => p.1 != p.2)

/-- Number of mismatches recorded by the second loop of main in
src/test-mt.cpp: after re-seeding with 1, the output at each zero-based
position 2^k - 1 (k = 0, ..., 32) compared against the doubled table. -/
def mainErrorsDoubled : Nat :=
  (List.range 33).countP (fun k => mtNth 1 (2 ^ k - 1) != doubled_reference_seed1.getD k 0)

/-- Total mismatch count accumulated by main in src/test-mt.cpp. -/
def mainErrors : Nat := mainErrors200 + mainErrorsDoubled

/-- Exit code of main in src/test-mt.cpp: `return errors > 0;` — the C++
bool converts to 1 when any mismatch occurred and to 0 otherwise. -/
def mainExit : Nat := if mainErrors > 0 then 1 else 0

/-- Logical right shift never increases a natural number. -/
theorem shiftRight_le (y k : Nat) : y >>> k ≤ y := by
  rw [Nat.shiftRight_eq_div_pow]
  exact Nat.div_le_self _ _

/-- Word modulus is positive. -/
theorem U32_pos : 0 < U32 := by norm_num [U32]

/-- Folding twistStep over any index list preserves the length of the
state array. -/
theorem length_foldl_twistStep (l : List Nat) (ws : List Nat) :
    (l.foldl twistStep ws).length = ws.length := by
  induction l generalizing ws with
  | nil => rfl
  | cons a t ih =>
    simp only [List.foldl_cons]
    rw [ih]
    simp [twistStep]

/-- Partial Regenerate passes preserve the length of the state array. -/
theorem length_regenUpTo (ws : List Nat) (k : Nat) :
    (regenUpTo ws k).length = ws.length :=
  length_foldl_twistStep _ _

/-- Peeling the last store off a partial Regenerate pass. -/
theorem regenUpTo_succ (ws : List Nat) (k : Nat) :
    regenUpTo ws (k + 1) = twistStep (regenUpTo ws k) k := by
  simp [regenUpTo, List.range_succ]

/-- A store at index i leaves every other index unchanged. -/
theorem getD_twistStep_ne (ws : List Nat) (i j : Nat) (h : i ≠ j) :
    (twistStep ws i).getD j 0 = ws.getD j 0 := by
  simp [twistStep, List.getD_eq_getElem?_getD, List.getElem?_set_ne h]

/-- Indices at or beyond k are untouched by the first k stores of a
Regenerate pass: they still hold their pre-update values. -/
theorem getD_regenUpTo_of_le (ws : List Nat) (k j : Nat) (h : k ≤ j) :
    (regenUpTo ws k).getD j 0 = ws.getD j 0 := by
  induction k with
  | zero => rfl
  | succ k ih =>
    rw [regenUpTo_succ, getD_twistStep_ne _ _ _ (by omega), ih (by omega)]

/-- Once index j has been stored, later stores of the same pass never
change it again. -/
theorem getD_regenUpTo_stable (ws : List Nat) (j k : Nat) (hjk : j < k) :
    (regenUpTo ws k).getD j 0 = (regenUpTo ws (j + 1)).getD j 0 := by
  induction k with
  | zero => omega
  | succ k ih =>
    rcases Nat.lt_or_ge j k with h | h
    · rw [regenUpTo_succ, getD_twistStep_ne _ _ _ (by omega), ih h]
    · have hjk2 : j = k := by omega
      subst hjk2
      rfl

/-- Value stored at index i by the Regenerate pass, in terms of the
array as it stands just before that store. -/
theorem getD_regenUpTo_self (ws : List Nat) (i : Nat) (h : i < ws.length) :
    (regenUpTo ws (i + 1)).getD i 0 =
      mtNext ((regenUpTo ws i).getD i 0)
             ((regenUpTo ws i).getD ((i + 1) % 624) 0)
             ((regenUpTo ws i).getD ((i + 397) % 624) 0) := by
  rw [regenUpTo_succ]
  have hlen : i < (regenUpTo ws i).length := by rw [length_regenUpTo]; exact h
  simp [twistStep, List.getD_eq_getElem?_getD, List.getElem?_set_self hlen]

/-- Length of the seeded tail. -/
theorem seedFrom_length (w i n : Nat) : (seedFrom w i n).length = n := by
  induction n generalizing w i with
  | zero => rfl
  | succ n ih => simp [seedFrom, ih]

/-- Head of the seeded tail is one seeding step from the previous word. -/
theorem seedFrom_getD_zero (w i n : Nat) (h : 0 < n) :
    (seedFrom w i n).getD 0 0 = seedStep w i := by
  cases n with
  | zero => omega
  | succ n => rfl

/-- Each later word of the seeded tail is one seeding step from its
predecessor, at the matching index. -/
theorem seedFrom_getD_succ (n j w i : Nat) (h : j + 1 < n) :
    (seedFrom w i n).getD (j + 1) 0 =
      seedStep ((seedFrom w i n).getD j 0) (i + j + 1) := by
  induction n generalizing j w i with
  | zero => omega
  | succ n ih =>
    cases j with
    | zero =>
      simp only [seedFrom, List.getD_cons_succ, List.getD_cons_zero]
      rw [seedFrom_getD_zero _ _ n (by omega)]
    | succ k =>
      simp only [seedFrom, List.getD_cons_succ]
      rw [ih k (seedStep w i) (i + 1) (by omega)]
      have harith : i + 1 + k + 1 = i + (k + 1) + 1 := by omega
      rw [harith]

/-- Every word of a state array is a 32-bit value. -/
def boundedWords (ws : List Nat) : Prop := ∀ x ∈ ws, x < U32

/-- Reading any index of a bounded array (default 0) gives a 32-bit value. -/
theorem getD_lt_of_bounded {ws : List Nat} (h : boundedWords ws) (j : Nat) :
    ws.getD j 0 < U32 := by
  rw [List.getD_eq_getElem?_getD]
  cases hj : ws[j]? with
  | none => simpa using U32_pos
  | some a => simpa using h a (List.getElem?_mem hj)

/-- Tempering preserves the 32-bit bound. -/
theorem temper_lt {y : Nat} (h : y < U32) : temper y < U32 := by
  have h32 : U32 = 2 ^ 32 := rfl
  rw [h32] at h ⊢
  unfold temper
  have h1 : y ^^^ (y >>> 11) < 2 ^ 32 :=
    Nat.xor_lt_two_pow h (lt_of_le_of_lt (shiftRight_le y 11) h)
  have h2 : (y ^^^ (y >>> 11)) ^^^ (((y ^^^ (y >>> 11)) <<< 7) &&& 0x9D2C5680) < 2 ^ 32 :=
    Nat.xor_lt_two_pow h1 (Nat.and_lt_two_pow _ (by norm_num))
  have h3 : ((y ^^^ (y >>> 11)) ^^^ (((y ^^^ (y >>> 11)) <<< 7) &&& 0x9D2C5680)) ^^^
      ((((y ^^^ (y >>> 11)) ^^^ (((y ^^^ (y >>> 11)) <<< 7) &&& 0x9D2C5680)) <<< 15) &&&
        0xEFC60000) < 2 ^ 32 :=
    Nat.xor_lt_two_pow h2 (Nat.and_lt_two_pow _ (by norm_num))
  exact Nat.xor_lt_two_pow h3 (lt_of_le_of_lt (shiftRight_le _ 18) h3)

/-- One twist value is a 32-bit value whenever its third argument is. -/
theorem mtNext_lt {a b c : Nat} (hc : c < U32) : mtNext a b c < U32 := by
  have h32 : U32 = 2 ^ 32 := rfl
  rw [h32] at hc ⊢
  unfold mtNext
  have hy : (a &&& 0x80000000) ||| (b &&& 0x7FFFFFFF) < 2 ^ 32 :=
    Nat.or_lt_two_pow (Nat.and_lt_two_pow _ (by norm_num)) (Nat.and_lt_two_pow _ (by norm_num))
  have hnx : c ^^^ (((a &&& 0x80000000) ||| (b &&& 0x7FFFFFFF)) >>> 1) < 2 ^ 32 :=
    Nat.xor_lt_two_pow hc (lt_of_le_of_lt (shiftRight_le _ 1) hy)
  dsimp only
  split
  · exact Nat.xor_lt_two_pow hnx (by norm_num)
  · exact hnx

/-- Storing a 32-bit value into a bounded array keeps it bounded. -/
theorem boundedWords_set {ws : List Nat} {v : Nat} (h : boundedWords ws)
    (hv : v < U32) (i : Nat) : boundedWords (ws.set i v) := fun x hx =>
  (List.mem_or_eq_of_mem_set hx).elim (h x) (fun e => e ▸ hv)

/-- One in-place twist store keeps the array bounded. -/
theorem boundedWords_twistStep {ws : List Nat} (h : boundedWords ws) (i : Nat) :
    boundedWords (twistStep ws i) :=
  boundedWords_set h (mtNext_lt (getD_lt_of_bounded h _)) i

/-- Folding twist stores keeps the array bounded. -/
theorem boundedWords_foldl (l : List Nat) {ws : List Nat} (h : boundedWords ws) :
    boundedWords (l.foldl twistStep ws) := by
  induction l generalizing ws with
  | nil => exact h
  | cons a t ih => exact ih (boundedWords_twistStep h a)

/-- Regenerate keeps the array bounded. -/
theorem boundedWords_regenerate {ws : List Nat} (h : boundedWords ws) :
    boundedWords (regenerate ws) :=
  boundedWords_foldl _ h

/-- The seeded tail is bounded. -/
theorem boundedWords_seedFrom (w i n : Nat) : boundedWords (seedFrom w i n) := by
  induction n generalizing w i with
  | zero => intro x hx; cases hx
  | succ n ih =>
    intro x hx
    rcases List.mem_cons.mp hx with h | h
    · subst h; exact Nat.mod_lt _ U32_pos
    · exact ih _ _ x h

/-- The freshly seeded array is bounded. -/
theorem boundedWords_seedWords (s : Nat) : boundedWords (seedWords s) := by
  intro x hx
  rcases List.mem_cons.mp hx with h | h
  · subst h; exact Nat.mod_lt _ U32_pos
  · exact boundedWords_seedFrom _ _ _ x h

/-- Words of the state after an Extract are the old words or their
regeneration. -/
theorem rand_u32_snd_words (st : MTState) :
    (rand_u32 st).2.words =
      if st.cursor = 624 then regenerate st.words else st.words := by
  by_cases h : st.cursor = 624 <;> simp [rand_u32, h]

/-- The state array stays bounded along any run of the generator. -/
theorem boundedWords_mtStateAfter (s n : Nat) :
    boundedWords (mtStateAfter s n).words := by
  induction n with
  | zero => exact boundedWords_seedWords s
  | succ n ih =>
    show boundedWords (rand_u32 (mtStateAfter s n)).2.words
    rw [rand_u32_snd_words]
    split
    · exact boundedWords_regenerate ih
    · exact ih

/-- Every Extract output is a 32-bit value when drawn from a bounded
state. -/
theorem rand_u32_fst_lt {st : MTState} (h : boundedWords st.words) :
    (rand_u32 st).1 < U32 := by
  have hb : boundedWords (if st.cursor = 624 then regenerate st.words else st.words) := by
    split
    · exact boundedWords_regenerate h
    · exact h
  by_cases hc : st.cursor = 624 <;>
    · simp only [rand_u32, hc, if_true, if_false, reduceIte]
      exact temper_lt (getD_lt_of_bounded (by simpa [hc] using hb) _)

/-- Every output of the seeded generator is a 32-bit value. -/
theorem mtNth_lt (s n : Nat) : mtNth s n < U32 :=
  rand_u32_fst_lt (boundedWords_mtStateAfter s n)

/-- C4: Regenerate recomputes all 624 state words in place, in increasing
index order. The word stored at index i combines words[i] (still its
pre-update value), words[(i+1) mod 624] (pre-update for i < 623, but the
already rewritten words[0] for i = 623) and words[(i+397) mod 624]
(pre-update for i <= 226, already rewritten words[i-227] for i >= 227),
via the twist formula mtNext. -/
theorem regenerate_spec (ws : List Nat) (hlen : ws.length = 624) (i : Nat)
    (hi : i < 624) :
    (regenerate ws).getD i 0 =
      mtNext (ws.getD i 0)
        (if i = 623 then (regenerate ws).getD 0 0 else ws.getD (i + 1) 0)
        (if i ≤ 226 then ws.getD (i + 397) 0
         else (regenerate ws).getD (i - 227) 0) := by
  have hstable : ∀ j, j < 624 →
      (regenerate ws).getD j 0 = (regenUpTo ws (j + 1)).getD j 0 :=
    fun j hj => getD_regenUpTo_stable ws j 624 hj
  rw [hstable i hi, getD_regenUpTo_self ws i (by omega)]
  have ha : (regenUpTo ws i).getD i 0 = ws.getD i 0 :=
    getD_regenUpTo_of_le ws i i le_rfl
  have hb : (regenUpTo ws i).getD ((i + 1) % 624) 0 =
      (if i = 623 then (regenerate ws).getD 0 0 else ws.getD (i + 1) 0) := by
    by_cases h : i = 623
    · subst h
      rw [if_pos rfl]
      have hm : (623 + 1) % 624 = 0 := by norm_num
      rw [hm, getD_regenUpTo_stable ws 0 623 (by omega), hstable 0 (by omega)]
    · have hm : (i + 1) % 624 = i + 1 := by omega
      rw [hm, getD_regenUpTo_of_le ws i (i + 1) (by omega), if_neg h]
  have hc : (regenUpTo ws i).getD ((i + 397) % 624) 0 =
      (if i ≤ 226 then ws.getD (i + 397) 0
       else (regenerate ws).getD (i - 227) 0) := by
    by_cases h : i ≤ 226
    · have hm : (i + 397) % 624 = i + 397 := by omega
      rw [hm, getD_regenUpTo_of_le ws i (i + 397) (by omega), if_pos h]
    · have hm : (i + 397) % 624 = i - 227 := by omega
      rw [hm, getD_regenUpTo_stable ws (i - 227) i (by omega),
        hstable (i - 227) (by omega), if_neg h]
  rw [ha, hb, hc]

/-- C4 witness: the characterization instantiated at a concrete 624-word
array and index 300. -/
theorem regenerate_spec_witness :
    (List.replicate 624 (5 : Nat)).length = 624 ∧ (300 : Nat) < 624 ∧
    (regenerate (List.replicate 624 (5 : Nat))).getD 300 0 =
      mtNext ((List.replicate 624 (5 : Nat)).getD 300 0)
        (if (300 : Nat) = 623 then
           (regenerate (List.replicate 624 (5 : Nat))).getD 0 0
         else (List.replicate 624 (5 : Nat)).getD (300 + 1) 0)
        (if (300 : Nat) ≤ 226 then (List.replicate 624 (5 : Nat)).getD (300 + 397) 0
         else (regenerate (List.replicate 624 (5 : Nat))).getD (300 - 227) 0) :=
  ⟨by simp, by norm_num,
    regenerate_spec (List.replicate 624 (5 : Nat)) (by simp) 300 (by norm_num)⟩

/-- C3: srand(s) sets words[0] to s and each later word i (1 to 623) to
(1812433253 * (words[i-1] XOR (words[i-1] >>> 30)) + i) mod 2^32, and
resets the cursor to 624. The resulting state is a function of s alone. -/
theorem srand_spec (s : Nat) (hs : s < 2 ^ 32) :
    (srand s).words.length = 624 ∧
    (srand s).words.getD 0 0 = s ∧
    (∀ i, 1 ≤ i → i ≤ 623 →
      (srand s).words.getD i 0 =
        (1812433253 * ((srand s).words.getD (i - 1) 0 ^^^
          ((srand s).words.getD (i - 1) 0 >>> 30)) + i) % 2 ^ 32) ∧
    (srand s).cursor = 624 := by
  have hmod : s % U32 = s := Nat.mod_eq_of_lt hs
  refine ⟨?_, ?_, ?_, rfl⟩
  · simp [srand, seedWords, seedFrom_length]
  · simp [srand, seedWords, hmod]
  · intro i h1 h623
    obtain ⟨j, rfl⟩ : ∃ j, i = j + 1 := ⟨i - 1, by omega⟩
    simp only [srand, seedWords, List.getD_cons_succ, Nat.add_sub_cancel]
    cases j with
    | zero =>
      rw [seedFrom_getD_zero _ _ _ (by omega)]
      simp [seedStep, hmod, U32]
    | succ k =>
      rw [seedFrom_getD_succ 623 k (s % U32) 1 (by omega)]
      have harith : 1 + k + 1 = k + 1 + 1 := by omega
      rw [harith]
      simp [seedStep, U32]

/-- C3 witness: the seeding contract instantiated at seed 1. -/
theorem srand_spec_witness :
    (1 : Nat) < 2 ^ 32 ∧
    ((srand 1).words.length = 624 ∧
     (srand 1).words.getD 0 0 = 1 ∧
     (∀ i, 1 ≤ i → i ≤ 623 →
       (srand 1).words.getD i 0 =
         (1812433253 * ((srand 1).words.getD (i - 1) 0 ^^^
           ((srand 1).words.getD (i - 1) 0 >>> 30)) + i) % 2 ^ 32) ∧
     (srand 1).cursor = 624) :=
  ⟨by norm_num, srand_spec 1 (by norm_num)⟩

/-- C5: Extract regenerates and resets the cursor exactly when the cursor
equals 624, then returns the tempering of words[cursor] — with shift
amounts 11, 7, 15, 18 and masks 0x9D2C5680, 0xEFC60000 exactly — and
increments the cursor by 1. -/
theorem rand_u32_spec (st : MTState) :
    rand_u32 st =
      (let w := if st.cursor = 624 then regenerate st.words else st.words
       let c := if st.cursor = 624 then 0 else st.cursor
       let y0 := w.getD c 0
       let y1 := y0 ^^^ (y0 >>> 11)
       let y2 := y1 ^^^ ((y1 <<< 7) &&& 0x9D2C5680)
       let y3 := y2 ^^^ ((y2 <<< 15) &&& 0xEFC60000)
       (y3 ^^^ (y3 >>> 18), MTState.mk w (c + 1))) := by
  by_cases h : st.cursor = 624 <;> simp [rand_u32, temper, h]

/-- C6: the output stream is a function of the seed alone — two instances
seeded with the same value agree at every length n, and re-seeding any
previously used state with s reproduces the stream of a fresh instance
seeded with s from position 0, discarding all prior state. -/
theorem reseed_determinism (st1 st2 : MTState) (s n : Nat) :
    extractN (reseed st1 s) n = extractN (reseed st2 s) n ∧
    extractN (reseed st1 s) n = extractN (srand s) n ∧
    extractN (reseed st1 s) n = mtOutputs s n :=
  ⟨rfl, rfl, rfl⟩

/-- C7: one 64-bit draw from any state equals (a <<< 32) ||| b where a
and b are, high word first, the values of two sequential Extract calls
from that state, and it leaves the state exactly two Extract calls
ahead; in terms of stream positions it combines outputs n and n+1 and
moves the state from position n to position n+2. -/
theorem rand_u64_spec (st : MTState) (s n : Nat) :
    (rand_u64 st).1 = ((rand_u32 st).1 <<< 32) ||| (rand_u32 (rand_u32 st).2).1 ∧
    (rand_u64 st).2 = (rand_u32 (rand_u32 st).2).2 ∧
    (rand_u64 (mtStateAfter s n)).1 = (mtNth s n <<< 32) ||| mtNth s (n + 1) ∧
    (rand_u64 (mtStateAfter s n)).2 = mtStateAfter s (n + 2) :=
  ⟨rfl, rfl, rfl, rfl⟩

/-- C8: at every position n of the stream of any seed s, the float draw
and the double draw both lie in the closed interval [0,1], and each is
the Extract output at that position divided by 2^32 - 1. -/
theorem rand_float_double_range (s n : Nat) :
    0 ≤ (randf_cc (mtStateAfter s n)).1 ∧ (randf_cc (mtStateAfter s n)).1 ≤ 1 ∧
    (randf_cc (mtStateAfter s n)).1 = (mtNth s n : ℚ) / (2 ^ 32 - 1) ∧
    0 ≤ (randd_cc (mtStateAfter s n)).1 ∧ (randd_cc (mtStateAfter s n)).1 ≤ 1 ∧
    (randd_cc (mtStateAfter s n)).1 = (mtNth s n : ℚ) / (2 ^ 32 - 1) := by
  have hlt : (rand_u32 (mtStateAfter s n)).1 < U32 := mtNth_lt s n
  have hden : (0 : ℚ) < 2 ^ 32 - 1 := by norm_num
  have h0 : 0 ≤ ((rand_u32 (mtStateAfter s n)).1 : ℚ) / (2 ^ 32 - 1) := by positivity
  have h1 : ((rand_u32 (mtStateAfter s n)).1 : ℚ) / (2 ^ 32 - 1) ≤ 1 := by
    rw [div_le_one hden]
    have hle : (rand_u32 (mtStateAfter s n)).1 ≤ 2 ^ 32 - 1 := by
      have hlt2 : (rand_u32 (mtStateAfter s n)).1 < 2 ^ 32 := hlt
      omega
    calc ((rand_u32 (mtStateAfter s n)).1 : ℚ)
        ≤ ((2 ^ 32 - 1 : Nat) : ℚ) := by exact_mod_cast hle
      _ = (2 ^ 32 - 1 : ℚ) := by norm_num
  exact ⟨h0, h1, rfl, h0, h1, rfl⟩

/-- C9: the exit code of main is nonzero exactly when the total mismatch
count against the two reference tables is nonzero; it is exactly 1 when
any mismatch occurred and 0 when all compared outputs match. -/
theorem main_exit_spec :
    (mainExit ≠ 0 ↔ mainErrors ≠ 0) ∧
    mainExit = (if mainErrors = 0 then 0 else 1) := by
  unfold mainExit
  rcases Nat.eq_zero_or_pos mainErrors with h | h
  · simp [h]
  · have hne : mainErrors ≠ 0 := by omega
    simp [hne, h]

/-- C10: the two reference tables embedded in the harness are mutually
consistent: for every k from 0 to 7 the doubled-index table entry k
equals the expected-table entry at position 2^k - 1; in particular entry
7 of the doubled table and entry 127 of the expected table are both
2321861504. -/
theorem tables_consistent :
    ((List.range 8).all fun k =>
      doubled_reference_seed1.getD k 0 == expected.getD (2 ^ k - 1) 0) = true ∧
    doubled_reference_seed1.getD 7 0 = 2321861504 ∧
    expected.getD 127 0 = 2321861504 :=
  ⟨by decide, rfl, rfl⟩

/-- Extracting at a full cursor behaves like extracting from the
regenerated array at cursor 0. -/
theorem rand_u32_at_full (ws : List Nat) :
    rand_u32 ⟨ws, 624⟩ = rand_u32 ⟨regenerate ws, 0⟩ := by
  simp [rand_u32]

/-- Runs of positive length started at a full cursor coincide with runs
started at cursor 0 of the regenerated array. -/
theorem extractN_at_full (ws : List Nat) (n : Nat) :
    extractN ⟨ws, 624⟩ (n + 1) = extractN ⟨regenerate ws, 0⟩ (n + 1) := by
  simp only [extractN, rand_u32_at_full]

/-- A run that stays inside one batch just tempers the words of the
array from the cursor on: no regeneration happens. -/
theorem extractN_take (ws : List Nat) (hlen : ws.length = 624) :
    ∀ n c, c + n ≤ 624 →
      extractN ⟨ws, c⟩ n = ((ws.drop c).take n).map temper := by
  intro n
  induction n with
  | zero => intro c h; simp [extractN]
  | succ n ih =>
    intro c h
    have hclen : c < ws.length := by omega
    have hcur : ¬(c = 624) := by omega
    have hr : rand_u32 ⟨ws, c⟩ = (temper (ws.getD c 0), ⟨ws, c + 1⟩) := by
      simp [rand_u32, hcur]
    simp only [extractN, hr]
    rw [ih (c + 1) (by omega), List.drop_eq_getElem_cons hclen,
      List.take_succ_cons, List.map_cons]
    simp [List.getD_eq_getElem?_getD, List.getElem?_eq_getElem hclen]

/-- First 200 outputs for any fresh seed, computed as one regeneration of
the seeded array followed by tempering of its first 200 words. -/
theorem mtOutputs200 (s : Nat) :
    mtOutputs s 200 = ((regenerate (seedWords s)).take 200).map temper := by
  have hlen : (regenerate (seedWords s)).length = 624 := by
    have h1 : (regenerate (seedWords s)).length = (seedWords s).length :=
      length_regenUpTo _ _
    rw [h1]
    simp [seedWords, seedFrom_length]
  show extractN ⟨seedWords s, 624⟩ (199 + 1) = _
  rw [extractN_at_full]
  rw [extractN_take (regenerate (seedWords s)) hlen (199 + 1) 0 (by omega)]
  simp

/-- C1: for seed 1, the first 200 Extract outputs equal, position by
position, the 200-entry reference table embedded in the harness, whose
entries 0, 1 and 199 are 1791095845, 4282876139 and 656828586. -/
theorem mt_reference_match :
    mtOutputs 1 200 = expected ∧
    expected.getD 0 0 = 1791095845 ∧
    expected.getD 1 0 = 4282876139 ∧
    expected.getD 199 0 = 656828586 ∧
    expected.length = 200 :=
  ⟨by rw [mtOutputs200]; decide, rfl, rfl, rfl, rfl⟩
